import Mathlib

/-!
Verification of the Arwen WASM VM execution core: a shallow embedding of the
storage context, runtime context (memory access and state stacking), the
asynchronous call machinery and the big-integer API, together with theorems
settling the specification claims about them.

Byte strings are modelled as lists of naturals; unsigned 64-bit gas values are
naturals with explicit saturation or overflow checks where the source's math
package applies them.
-/

namespace WasmVM

/-- Byte strings (Go byte slices); nil and empty slices are identified, matching
the behaviour of bytes.Equal and len in the source. -/
abbrev Bytes := List Nat

/-- The error values relevant to the embedded operations. -/
inductive VMErr where
  | notEnoughGas
  | storeReservedKey
  | cannotWriteProtectedKey
  | callBackFuncNotExpected
  | divZero
  | badBounds
  | negativeLength
  | badLowerBounds
  | additionOverflow
  | noBigIntUnderHandle
deriving DecidableEq, Repr

/-- Storage write classification, arwen.StorageStatus. -/
inductive StorageStatus where
  | unchanged
  | modified
  | added
  | deleted
deriving DecidableEq, Repr

def UINT64_MAX : Nat := 2 ^ 64 - 1

/-- Modelled from the spec: the math package's overflow-protected uint64
multiplication is not under src; section 3 says gas arithmetic "saturates or
explicitly fails on overflow", and MulUint64 saturates. -/
def mulUint64 (a b : Nat) : Nat := min (a * b) UINT64_MAX

/-- Modelled from the spec: the math package's overflow-protected uint64
addition (saturating variant) is not under src. -/
def addUint64 (a b : Nat) : Nat := min (a + b) UINT64_MAX

/-- Modelled from the spec: the math package's checked uint64 addition used by
setupAsyncCallsGas returns an error on overflow; its source is not under src. -/
def addUint64Checked (a b : Nat) : Except VMErr Nat :=
  if a + b ≤ UINT64_MAX then .ok (a + b) else .error .additionOverflow

/-- A per-key storage update record (vmcommon.StorageUpdate). -/
structure StorageUpdate where
  offset : Bytes
  data : Bytes
  written : Bool
deriving DecidableEq, Repr

/-- The storage-update map of one output account, as an association list (the
Go map key is the key bytes). -/
abbrev StorageUpdates := List (Bytes × StorageUpdate)

def suLookup (m : StorageUpdates) (k : Bytes) : Option StorageUpdate :=
  match m with
  | [] => none
  | (k', u) :: rest => if k' = k then some u else suLookup rest k

def suInsert (m : StorageUpdates) (k : Bytes) (u : StorageUpdate) : StorageUpdates :=
  match m with
  | [] => [(k, u)]
  | (k', u') :: rest => if k' = k then (k, u) :: rest else (k', u') :: suInsert rest k u

/-- The gas-schedule entries used by the embedded operations. -/
structure GasSchedule where
  dataCopyPerByte : Nat
  storePerByte : Nat
  persistPerByte : Nat
  releasePerByte : Nat
  asyncCallStep : Nat
  bigIntPowCost : Nat
  bigIntTDivCost : Nat
  bigIntTModCost : Nat
  bigIntEDivCost : Nat
deriving DecidableEq, Repr

/-- The metering state visible to the storage context: gas left for execution
and the accumulated refund counter. -/
structure Metering where
  gasLeft : Nat
  refund : Nat
deriving DecidableEq, Repr

/-- use-gas-bounded: fails with not-enough-gas if n exceeds gas-left, else
deducts. -/
def useGasBounded (m : Metering) (n : Nat) : Except VMErr Metering :=
  if n > m.gasLeft then .error .notEnoughGas else .ok { m with gasLeft := m.gasLeft - n }

/-- use-gas: unbounded deduction (the instance's used-points counter grows;
gas-left floors at zero). -/
def useGas (m : Metering) (n : Nat) : Metering := { m with gasLeft := m.gasLeft - n }

/-- free-gas: increases the refund counter. -/
def freeGas (m : Metering) (n : Nat) : Metering := { m with refund := m.refund + n }

/-- Modelled from the spec: the arwen ProtectedStoragePrefix constant is not
under src; section 6 describes the protected prefix. Its value is the byte
string "ARWEN@". -/
def ProtectedStoragePrefix : Bytes := [65, 82, 87, 69, 78, 64]

def AddressLen : Nat := 32

/-- bytes.HasPrefix. -/
def bytesHasPrefix (p k : Bytes) : Bool := decide (k.take p.length = p)

/-- The storage context, scoped to the single account address it currently
operates on: the flags, the configured reserved prefix, the blockchain hook
view of that account's storage, the output account's storage-update map, and
the metering state, plus the context's own address stack. -/
structure StorageCtx where
  reservedPrefix : Bytes
  flagDifferentGas : Bool
  readOnly : Bool
  protectionEnabled : Bool
  hook : Bytes → Bytes
  updates : StorageUpdates
  metering : Metering
  schedule : GasSchedule
  address : Bytes
  stateStack : List Bytes

def isArwenProtectedKey (key : Bytes) : Bool := bytesHasPrefix ProtectedStoragePrefix key

def isElrondReservedKey (ctx : StorageCtx) (key : Bytes) : Bool := bytesHasPrefix ctx.reservedPrefix key

/-- getStorageFromAddressUnmetered: reserved non-arwen-protected keys bypass
the cache when the different-gas flag is set; otherwise the storage-update map
serves as a read cache, populated on miss with written=false. -/
def getStorageFromAddressUnmetered (ctx : StorageCtx) (key : Bytes) : Bytes × Bool × StorageCtx :=
  if !(isArwenProtectedKey key) && isElrondReservedKey ctx key && ctx.flagDifferentGas then
    (ctx.hook key, false, ctx)
  else
    match suLookup ctx.updates key with
    | some u => (u.data, true, ctx)
    | none =>
      let value := ctx.hook key
      (value, false,
        { ctx with updates := suInsert ctx.updates key { offset := key, data := value, written := false } })

/-- GetStorageUnmetered reads under the context's current address. -/
def getStorageUnmetered (ctx : StorageCtx) (key : Bytes) : Bytes × Bool × StorageCtx :=
  getStorageFromAddressUnmetered ctx key

def useGasForValueIfNeeded (ctx : StorageCtx) (value : Bytes) (usedCache : Bool) : StorageCtx :=
  if !usedCache || !ctx.flagDifferentGas then
    { ctx with metering := useGas ctx.metering (mulUint64 ctx.schedule.dataCopyPerByte value.length) }
  else ctx

def useExtraGasForKeyIfNeeded (ctx : StorageCtx) (key : Bytes) (usedCache : Bool) : StorageCtx :=
  let extraBytes : Int := (key.length : Int) - (AddressLen : Int)
  if extraBytes ≤ 0 then ctx
  else if !ctx.flagDifferentGas || !usedCache then
    { ctx with metering := useGas ctx.metering (mulUint64 ctx.schedule.dataCopyPerByte extraBytes.toNat) }
  else ctx

/-- GetStorage: the metered read under the current address. -/
def GetStorage (ctx : StorageCtx) (key : Bytes) : Bytes × Bool × StorageCtx :=
  let r := getStorageUnmetered ctx key
  let ctx1 := useExtraGasForKeyIfNeeded r.2.2 key r.2.1
  let ctx2 := useGasForValueIfNeeded ctx1 r.1 r.2.1
  (r.1, r.2.1, ctx2)

/-- getOldValue: consult the update map; on miss read unmetered and populate
the cache with written=false. -/
def getOldValue (ctx : StorageCtx) (key : Bytes) : Bytes × Bool × StorageCtx :=
  match suLookup ctx.updates key with
  | some u => (u.data, true, ctx)
  | none =>
    let r := getStorageUnmetered ctx key
    (r.1, false,
      { r.2.2 with updates := suInsert r.2.2.updates key { offset := key, data := r.1, written := false } })

def computeGasForKey (ctx : StorageCtx) (key : Bytes) (usedCache : Bool) : Nat :=
  let extraBytes : Int := (key.length : Int) - (AddressLen : Int)
  if extraBytes > 0 && (!usedCache || !ctx.flagDifferentGas) then
    mulUint64 ctx.schedule.dataCopyPerByte extraBytes.toNat
  else 0

def computeGasForUnchangedValue (ctx : StorageCtx) (length : Nat) (usedCache : Bool) : Nat :=
  if !usedCache || !ctx.flagDifferentGas then mulUint64 ctx.schedule.dataCopyPerByte length else 0

/-- changeStorageUpdate: record the write with written=true (the data is
copied). -/
def changeStorageUpdate (ctx : StorageCtx) (key value : Bytes) : StorageCtx :=
  { ctx with updates := suInsert ctx.updates key { offset := key, data := value, written := true } }

def computeGasForSmallerValues (sched : GasSchedule) (extraLength length : Nat) : Nat × Nat :=
  (mulUint64 sched.persistPerByte length, mulUint64 sched.releasePerByte extraLength)

def computeGasForBiggerValues (sched : GasSchedule) (lengthOldValue extraLength : Nat) : Nat × Nat :=
  (addUint64 (mulUint64 sched.persistPerByte lengthOldValue) (mulUint64 sched.storePerByte extraLength), 0)

def storageAdded (ctx : StorageCtx) (length : Nat) : StorageStatus × Option VMErr × StorageCtx :=
  match useGasBounded ctx.metering (mulUint64 ctx.schedule.storePerByte length) with
  | .error e => (.unchanged, some e, ctx)
  | .ok m => (.added, none, { ctx with metering := m })

def storageDeleted (ctx : StorageCtx) (lengthOldValue : Nat) : StorageStatus × Option VMErr × StorageCtx :=
  (.deleted, none,
    { ctx with metering := freeGas ctx.metering (mulUint64 ctx.schedule.releasePerByte lengthOldValue) })

def storageUnchanged (ctx : StorageCtx) (length : Nat) (usedCache : Bool) : StorageStatus × Option VMErr × StorageCtx :=
  match useGasBounded ctx.metering (computeGasForUnchangedValue ctx length usedCache) with
  | .error e => (.unchanged, some e, ctx)
  | .ok m => (.unchanged, none, { ctx with metering := m })

/-- setStorageToAddress: the storage write with read-only, reserved-key and
protected-key guards, cache-aware gas charging and Unchanged / Added /
Deleted / Modified classification. -/
def setStorageToAddress (ctx : StorageCtx) (key value : Bytes) : StorageStatus × Option VMErr × StorageCtx :=
  if ctx.readOnly then (.unchanged, none, ctx)
  else if !(isArwenProtectedKey key) && isElrondReservedKey ctx key then
    (.unchanged, some .storeReservedKey, ctx)
  else if isArwenProtectedKey key && ctx.protectionEnabled then
    (.unchanged, some .cannotWriteProtectedKey, ctx)
  else
    let length := value.length
    let r := getOldValue ctx key
    let oldValue := r.1
    let usedCache := r.2.1
    let ctx1 := r.2.2
    let gasForKey := computeGasForKey ctx1 key usedCache
    match useGasBounded ctx1.metering gasForKey with
    | .error e => (.unchanged, some e, ctx1)
    | .ok m1 =>
      let ctx2 := { ctx1 with metering := m1 }
      if oldValue = value then storageUnchanged ctx2 length usedCache
      else
        let ctx3 := changeStorageUpdate ctx2 key value
        if oldValue = [] then storageAdded ctx3 length
        else if value = [] then storageDeleted ctx3 oldValue.length
        else
          let newValueExtraLength : Int := (length : Int) - (oldValue.length : Int)
          let gasPair :=
            if newValueExtraLength > 0 then
              computeGasForBiggerValues ctx3.schedule oldValue.length newValueExtraLength.toNat
            else if newValueExtraLength < 0 then
              computeGasForSmallerValues ctx3.schedule (-newValueExtraLength).toNat length
            else (0, 0)
          match useGasBounded ctx3.metering gasPair.1 with
          | .error e => (.unchanged, some e, ctx3)
          | .ok m2 => (.modified, none, { ctx3 with metering := freeGas m2 gasPair.2 })

def INT32_MAX_I : Int := 2 ^ 31 - 1

def INT32_MIN_I : Int := -(2 ^ 31)

/-- Modelled from the spec: the math package's overflow-protected int32
addition (not under src) saturates at the int32 bounds. -/
def addInt32 (a b : Int) : Int := max INT32_MIN_I (min (a + b) INT32_MAX_I)

/-- Go's uint32 conversion of an int32 value: two's-complement
reinterpretation. -/
def uint32cast (x : Int) : Nat := (x % (2 ^ 32 : Int)).toNat

/-- Go's copy of src into a freshly allocated slice of n zero bytes. -/
def copyBytes (n : Nat) (src : Bytes) : Bytes := src.take n ++ List.replicate (n - src.length) 0

/-- MemLoad: read length bytes at offset from the instance's linear memory;
zero length short-circuits, negative offset or out-of-memory offset fails
with bad-bounds, negative length fails with negative-length, and a requested
end beyond the memory yields the available bytes zero-padded. -/
def memLoad (mem : Bytes) (offset length : Int) : Except VMErr Bytes :=
  if length = 0 then .ok []
  else
    let memoryLength := mem.length
    let requestedEnd := addInt32 offset length
    let isOffsetTooSmall := offset < 0
    let isOffsetTooLarge := uint32cast offset > memoryLength
    let isRequestedEndTooLarge := uint32cast requestedEnd > memoryLength
    let isLengthNegative := length < 0
    if isOffsetTooSmall ∨ isOffsetTooLarge then .error .badBounds
    else if isLengthNegative then .error .negativeLength
    else
      let src := if isRequestedEndTooLarge then mem.drop (uint32cast offset)
                 else (mem.take (uint32cast requestedEnd)).drop (uint32cast offset)
      .ok (copyBytes length.toNat src)

/-- PushState of the storage context: push the current address. The top of
every modelled stack is the head of the list (the Go code appends to and pops
from the end of a slice). -/
def storagePushState (ctx : StorageCtx) : StorageCtx :=
  { ctx with stateStack := ctx.address :: ctx.stateStack }

/-- PopSetActiveState of the storage context: restore the saved address; a
no-op when the stack is empty. -/
def storagePopSetActiveState (ctx : StorageCtx) : StorageCtx :=
  match ctx.stateStack with
  | [] => ctx
  | prev :: rest => { ctx with address := prev, stateStack := rest }

/-- PopDiscard of the storage context: drop the saved address; a no-op when
the stack is empty. -/
def storagePopDiscard (ctx : StorageCtx) : StorageCtx :=
  match ctx.stateStack with
  | [] => ctx
  | _ :: rest => { ctx with stateStack := rest }

/-- vmcommon.CallType. -/
inductive CallType where
  | directCall
  | asynchronousCall
  | asynchronousCallBack
  | esdtTransferAndExecute
deriving DecidableEq, Repr

/-- The VMInput fields relevant to the embedded operations. -/
structure VMInput where
  callerAddr : Bytes
  arguments : List Bytes
  callValue : Nat
  callType : CallType
  gasPrice : Nat
  gasProvided : Nat
  gasLocked : Nat
  currentTxHash : Bytes
  originalTxHash : Bytes
deriving DecidableEq, Repr

/-- The fields PushState of the runtime context saves. -/
structure SavedRuntimeFrame where
  scAddress : Bytes
  callFunction : String
  readOnly : Bool
  vmInput : VMInput
deriving DecidableEq, Repr

/-- The runtime context: current frame, the active Wasmer instance (by
identity; the source field is named instance, a Lean keyword), the state and
instance stacks, and a record of the instances passed to CleanWasmerInstance
(an external effect). -/
structure RuntimeCtx where
  vmInput : VMInput
  scAddress : Bytes
  callFunction : String
  readOnly : Bool
  instanceRef : Nat
  stateStack : List SavedRuntimeFrame
  instanceStack : List Nat
  cleanedInstances : List Nat
deriving DecidableEq, Repr

def runtimePushInstance (ctx : RuntimeCtx) : RuntimeCtx :=
  { ctx with instanceStack := ctx.instanceRef :: ctx.instanceStack }

/-- popInstance: a no-op on an empty instance stack; when the popped instance
is the current one only the stack shrinks, otherwise the current instance is
cleaned and replaced by the popped one. -/
def runtimePopInstance (ctx : RuntimeCtx) : RuntimeCtx :=
  match ctx.instanceStack with
  | [] => ctx
  | prev :: rest =>
    if prev = ctx.instanceRef then { ctx with instanceStack := rest }
    else { ctx with instanceStack := rest,
                    cleanedInstances := ctx.instanceRef :: ctx.cleanedInstances,
                    instanceRef := prev }

def runtimePushState (ctx : RuntimeCtx) : RuntimeCtx :=
  runtimePushInstance
    { ctx with stateStack :=
        { scAddress := ctx.scAddress, callFunction := ctx.callFunction,
          readOnly := ctx.readOnly, vmInput := ctx.vmInput } :: ctx.stateStack }

/-- PopSetActiveState of the runtime context: restore the saved frame and pop
the instance stack; returns immediately when the state stack is empty. -/
def runtimePopSetActiveState (ctx : RuntimeCtx) : RuntimeCtx :=
  match ctx.stateStack with
  | [] => ctx
  | prev :: rest =>
    runtimePopInstance
      { ctx with stateStack := rest, vmInput := prev.vmInput, scAddress := prev.scAddress,
                 callFunction := prev.callFunction, readOnly := prev.readOnly }

/-- PopDiscard of the runtime context: drop the saved frame and pop the
instance stack; returns immediately when the state stack is empty. -/
def runtimePopDiscard (ctx : RuntimeCtx) : RuntimeCtx :=
  match ctx.stateStack with
  | [] => ctx
  | _ :: rest => runtimePopInstance { ctx with stateStack := rest }

/-- arwen.AsyncCallStatus. -/
inductive AsyncCallStatus where
  | pending
  | resolved
  | rejected
deriving DecidableEq, Repr

/-- An individual async call; ProvidedGas is the developer-specified amount,
GasLimit the effective amount computed during gas setup. -/
structure AsyncCall where
  status : AsyncCallStatus
  destination : Bytes
  data : Bytes
  valueBytes : Bytes
  providedGas : Nat
  gasLimit : Nat
  successCallback : String
  errorCallback : String
deriving DecidableEq, Repr

/-- A named group's payload: the optional group callback name and the ordered
calls. -/
structure AsyncCallGroup where
  callback : String
  asyncCalls : List AsyncCall
deriving DecidableEq, Repr

/-- The async context: owner of the calls, accumulated return data, and the
group map, modelled as an association list whose order is the iteration
order. -/
structure AsyncContext where
  callerAddr : Bytes
  returnData : Bytes
  asyncCallGroups : List (String × AsyncCallGroup)
deriving DecidableEq, Repr

/-- Modelled from the spec: the reserved async-data storage prefix
(arwen.AsyncDataPrefix, not under src); section 6 gives the layout
reserved-prefix followed by "async:". The concrete bytes are immaterial. -/
def AsyncDataPrefix : Bytes := [65, 82, 87, 69, 78, 64, 97, 115, 121, 110, 99, 58]

/-- arwen.CustomStorageKey: concatenate the prefix and the identifier. -/
def customStorageKey (keyType identifier : Bytes) : Bytes := keyType ++ identifier

/-- First pass of setupAsyncCallsGas over one group's calls: accumulate the
developer-specified gas (checked addition), fail with not-enough-gas as soon
as the partial sum exceeds gas-left, count zero-gas calls and set
GasLimit := ProvidedGas on the others. -/
def setupCallsPass1 (gasLeft : Nat) :
    List AsyncCall → Nat → Nat → Except VMErr (List AsyncCall × Nat × Nat)
  | [], gasNeeded, zeroCount => .ok ([], gasNeeded, zeroCount)
  | c :: rest, gasNeeded, zeroCount =>
    match addUint64Checked gasNeeded c.providedGas with
    | .error e => .error e
    | .ok gn =>
      if gn > gasLeft then .error .notEnoughGas
      else if c.providedGas = 0 then
        match setupCallsPass1 gasLeft rest gn (zeroCount + 1) with
        | .error e => .error e
        | .ok (rest', gn', zc') => .ok (c :: rest', gn', zc')
      else
        match setupCallsPass1 gasLeft rest gn zeroCount with
        | .error e => .error e
        | .ok (rest', gn', zc') => .ok ({ c with gasLimit := c.providedGas } :: rest', gn', zc')

/-- First pass of setupAsyncCallsGas over all groups. -/
def setupGroupsPass1 (gasLeft : Nat) :
    List (String × AsyncCallGroup) → Nat → Nat →
    Except VMErr (List (String × AsyncCallGroup) × Nat × Nat)
  | [], gasNeeded, zeroCount => .ok ([], gasNeeded, zeroCount)
  | (gid, grp) :: rest, gasNeeded, zeroCount =>
    match setupCallsPass1 gasLeft grp.asyncCalls gasNeeded zeroCount with
    | .error e => .error e
    | .ok (calls', gn, zc) =>
      match setupGroupsPass1 gasLeft rest gn zc with
      | .error e => .error e
      | .ok (rest', gn', zc') => .ok ((gid, { grp with asyncCalls := calls' }) :: rest', gn', zc')

/-- Second pass: assign the computed gas share to every zero-gas call. -/
def assignGasShare (gasShare : Nat) (groups : List (String × AsyncCallGroup)) :
    List (String × AsyncCallGroup) :=
  groups.map fun p =>
    (p.1, { p.2 with asyncCalls :=
      p.2.asyncCalls.map fun c =>
        if c.providedGas = 0 then { c with gasLimit := gasShare } else c })

/-- setupAsyncCallsGas: gas-limit each call from its ProvidedGas, failing with
not-enough-gas when the accumulated need exceeds (or, in the presence of
zero-gas calls, reaches) gas-left; split the remaining gas evenly over the
zero-gas calls. -/
def setupAsyncCallsGas (gasLeft : Nat) (actx : AsyncContext) : Except VMErr AsyncContext :=
  match setupGroupsPass1 gasLeft actx.asyncCallGroups 0 0 with
  | .error e => .error e
  | .ok (groups', gasNeeded, zeroCount) =>
    if zeroCount = 0 then .ok { actx with asyncCallGroups := groups' }
    else if gasLeft ≤ gasNeeded then .error .notEnoughGas
    else
      let gasShare := (gasLeft - gasNeeded) / zeroCount
      .ok { actx with asyncCallGroups := assignGasShare gasShare groups' }

/-- The transformation the first pass of setupAsyncCallsGas applies to each
call: nonzero ProvidedGas becomes the GasLimit. -/
def pass1Assign (c : AsyncCall) : AsyncCall :=
  if c.providedGas = 0 then c else { c with gasLimit := c.providedGas }

/-- The first pass of setupAsyncCallsGas as a map over the group list. -/
def mapPass1 (groups : List (String × AsyncCallGroup)) : List (String × AsyncCallGroup) :=
  groups.map fun p => (p.1, { p.2 with asyncCalls := p.2.asyncCalls.map pass1Assign })

/-- Total developer-specified gas of a call list. -/
def callsProvidedSum (calls : List AsyncCall) : Nat := (calls.map AsyncCall.providedGas).sum

/-- Total developer-specified gas over all groups. -/
def groupsProvidedSum (groups : List (String × AsyncCallGroup)) : Nat :=
  (groups.map fun p => callsProvidedSum p.2.asyncCalls).sum

/-- Number of zero-gas calls in a call list. -/
def callsZeroCount (calls : List AsyncCall) : Nat :=
  (calls.filter fun c => c.providedGas = 0).length

/-- Number of zero-gas calls over all groups. -/
def groupsZeroCount (groups : List (String × AsyncCallGroup)) : Nat :=
  (groups.map fun p => callsZeroCount p.2.asyncCalls).sum

/-- Position of the first call in the list whose destination is the caller. -/
def findCallPos (caller : Bytes) : List AsyncCall → Nat → Option Nat
  | [], _ => none
  | c :: rest, i => if c.destination = caller then some i else findCallPos caller rest (i + 1)

/-- The scan of processCallbackStack over the group map: within each group,
the first call whose destination equals the caller sets the position and the
group id; the outer loop stops once a nonempty group id has been recorded
(the empty string is the not-found sentinel). -/
def scanGroups (caller : Bytes) :
    List (String × AsyncCallGroup) → String × Nat → String × Nat
  | [], acc => acc
  | (gid, grp) :: rest, acc =>
    let acc' :=
      match findCallPos caller grp.asyncCalls 0 with
      | some pos => (gid, pos)
      | none => acc
    if acc'.1.length > 0 then acc' else scanGroups caller rest acc'

/-- Association-list read of the Go group map (default empty group). -/
def lookupGroup (groups : List (String × AsyncCallGroup)) (gid : String) : AsyncCallGroup :=
  match groups with
  | [] => { callback := "", asyncCalls := [] }
  | (g, grp) :: rest => if g = gid then grp else lookupGroup rest gid

/-- delete(asyncContext.AsyncCallGroups, gid). -/
def removeGroup (groups : List (String × AsyncCallGroup)) (gid : String) :
    List (String × AsyncCallGroup) :=
  match groups with
  | [] => []
  | (g, grp) :: rest => if g = gid then rest else (g, grp) :: removeGroup rest gid

/-- The swap-removal of lines 512-515 of processCallbackStack: overwrite the
found position with the last element, then truncate the local slice by one
(the truncation is not written back to the map; only its length is observed
afterwards). -/
def swapRemoveLast (calls : List AsyncCall) (pos : Nat) : List AsyncCall :=
  (calls.set pos (calls.getLastD
    { status := .pending, destination := [], data := [], valueBytes := [],
      providedGas := 0, gasLimit := 0, successCallback := "", errorCallback := "" })).dropLast

/-- How a processCallbackStack run ends, after the storage bookkeeping. -/
inductive CallbackOutcome where
  | notExpected
  | stillPending
  | clearedSentRemote
  | clearedExecutedLocal
deriving DecidableEq, Repr

/-- Observable result of processCallbackStack: the outcome and the SetStorage
calls it performed (a none value models the Go nil used to clear the
entry). -/
structure CallbackStackResult where
  outcome : CallbackOutcome
  storageWrites : List (Bytes × Option Bytes)
deriving DecidableEq, Repr

/-- processCallbackStack, applied to the async context deserialised from
storage and to the caller address of the incoming callback transaction:
locate the caller's call and drop it (dropping its group when it empties); if
any groups remain, return with no storage write at all; otherwise clear the
persisted entry and hand the accumulated return data to the owner's callback,
locally or through an outgoing transfer (the callback execution itself is
outside this projection). -/
def processCallbackStack (canExecuteLocally : Bytes → Bool) (originalTxHash : Bytes)
    (callerAddr : Bytes) (actx : AsyncContext) : CallbackStackResult :=
  let found := scanGroups callerAddr actx.asyncCallGroups ("", 0)
  if found.1.length = 0 then { outcome := .notExpected, storageWrites := [] }
  else
    let currentContextCalls := (lookupGroup actx.asyncCallGroups found.1).asyncCalls
    let truncated := swapRemoveLast currentContextCalls found.2
    let groups' :=
      if truncated.length = 0 then removeGroup actx.asyncCallGroups found.1
      else actx.asyncCallGroups
    if groups'.length > 0 then { outcome := .stillPending, storageWrites := [] }
    else
      let storageKey := customStorageKey AsyncDataPrefix originalTxHash
      if !(canExecuteLocally actx.callerAddr) then
        { outcome := .clearedSentRemote, storageWrites := [(storageKey, none)] }
      else
        { outcome := .clearedExecutedLocal, storageWrites := [(storageKey, none)] }

/-- Fuel-based big-endian digit expansion (the fuel bounds the recursion depth
so the definition evaluates in the kernel). -/
def natToBEBytesFuel : Nat → Nat → Bytes
  | 0, _ => []
  | fuel + 1, n => if n = 0 then [] else natToBEBytesFuel fuel (n / 256) ++ [n % 256]

/-- Minimal big-endian byte encoding of a natural number, as produced by Go's
big.Int.Bytes (the empty slice for zero). -/
def natToBEBytes (n : Nat) : Bytes := natToBEBytesFuel n n

/-- The output of a nested execution, as consumed by the callback input
construction. -/
structure VMOutputM where
  returnCode : Nat
  returnData : List Bytes
  returnMessage : Bytes
  gasRemaining : Nat
deriving DecidableEq, Repr

/-- vmcommon.ContractCallInput. -/
structure ContractCallInput where
  callerAddr : Bytes
  arguments : List Bytes
  callValue : Nat
  callType : CallType
  gasPrice : Nat
  gasProvided : Nat
  currentTxHash : Bytes
  originalTxHash : Bytes
  recipientAddr : Bytes
  function : String
deriving DecidableEq, Repr

/-- computeDataLengthFromArguments: the length the Data field would have in
the form callback@arg1@arg2..., i.e. the function name, one separator per
argument and the argument bytes. -/
def computeDataLengthFromArguments (function : String) (arguments : List Bytes) : Nat :=
  function.length + arguments.length + (arguments.map List.length).sum

/-- createCallbackContractCallInput: the first argument is the return code's
byte encoding, followed by the return data on success or the return message
on error; the gas deduction is one async-call-step plus data-copy-per-byte
times the whole data length; uint64 arithmetic wraps. -/
def createCallbackContractCallInput (sched : GasSchedule) (gasPrice : Nat)
    (currentTxHash originalTxHash scAddress : Bytes) (destinationVMOutput : VMOutputM)
    (callbackInitiator : Bytes) (callbackFunction : String) (destinationErrIsNone : Bool) :
    Except VMErr ContractCallInput :=
  let arguments :=
    natToBEBytes destinationVMOutput.returnCode ::
      (if destinationErrIsNone then destinationVMOutput.returnData
       else [destinationVMOutput.returnMessage])
  let gasLimit := destinationVMOutput.gasRemaining
  let dataLength := computeDataLengthFromArguments callbackFunction arguments
  let gasToUse := (sched.asyncCallStep + sched.dataCopyPerByte * dataLength) % (UINT64_MAX + 1)
  if gasLimit ≤ gasToUse then .error .notEnoughGas
  else
    .ok { callerAddr := callbackInitiator, arguments := arguments, callValue := 0,
          callType := .asynchronousCallBack, gasPrice := gasPrice,
          gasProvided := gasLimit - gasToUse, currentTxHash := currentTxHash,
          originalTxHash := originalTxHash, recipientAddr := scAddress,
          function := callbackFunction }

/-- Fuel-based bit-length computation (the fuel bounds the recursion depth so
the definition evaluates in the kernel). -/
def bitLenFuel : Nat → Nat → Nat
  | 0, _ => 0
  | fuel + 1, n => if n = 0 then 0 else bitLenFuel fuel (n / 2) + 1

/-- Bit length of a natural number (big.Int.BitLen of the absolute value). -/
def bitLen (n : Nat) : Nat := bitLenFuel n n

/-- Byte length of a big integer's absolute value. -/
def bigIntByteLen (v : Int) : Nat := (bitLen v.natAbs + 7) / 8

/-- The managed-types context: the big-integer handle table (handle to value,
as an association list) and the gas its operations have used. -/
structure MTState where
  bigIntValues : List (Int × Int)
  gasUsed : Nat
deriving DecidableEq, Repr

def mtLookup : List (Int × Int) → Int → Option Int
  | [], _ => none
  | (h, v) :: rest, k => if h = k then some v else mtLookup rest k

def mtInsert : List (Int × Int) → Int → Int → List (Int × Int)
  | [], k, v => [(k, v)]
  | (h, w) :: rest, k, v => if h = k then (k, v) :: rest else (h, w) :: mtInsert rest k v

/-- Modelled from the spec: GetBigIntOrCreate "creates a zero value if the
handle was never seen" (section 4.7); the managed-types context implementation
is not under src. -/
def getBigIntOrCreate (st : MTState) (h : Int) : Int × MTState :=
  match mtLookup st.bigIntValues h with
  | some v => (v, st)
  | none => (0, { st with bigIntValues := mtInsert st.bigIntValues h 0 })

/-- Modelled from the spec: GetTwoBigInt looks both operands up by handle and
fails when either handle was never seen; the implementation is not under
src. -/
def getTwoBigInt (st : MTState) (h1 h2 : Int) : Except VMErr (Int × Int) :=
  match mtLookup st.bigIntValues h1, mtLookup st.bigIntValues h2 with
  | some a, some b => .ok (a, b)
  | _, _ => .error .noBigIntUnderHandle

/-- Modelled from the spec: ConsumeGasForBigIntCopy "deducts per-byte cost for
the aggregate byte length" (section 4.7); the implementation is not under
src. -/
def consumeGasForBigIntCopy (sched : GasSchedule) (st : MTState) (vs : List Int) : MTState :=
  { st with gasUsed := st.gasUsed + sched.dataCopyPerByte * (vs.map bigIntByteLen).sum }

/-- Modelled from the spec: ConsumeGasForThisBigIntNumberOfBytes deducts a
bound "proportional to the expected result byte length" (section 4.7);
negative byte lengths clamp to zero. The implementation is not under src. -/
def consumeGasForThisBigIntNumberOfBytes (sched : GasSchedule) (st : MTState)
    (byteLen : Int) : MTState :=
  { st with gasUsed := st.gasUsed + sched.dataCopyPerByte * byteLen.toNat }

/-- Which of the three division operations runs. -/
inductive DivOpKind where
  | tdiv
  | tmod
  | ediv
deriving DecidableEq, Repr

def divOpBaseCost (sched : GasSchedule) : DivOpKind → Nat
  | .tdiv => sched.bigIntTDivCost
  | .tmod => sched.bigIntTModCost
  | .ediv => sched.bigIntEDivCost

/-- The arithmetic each operation performs once the divisor is nonzero: Quo
and Rem truncate (like Go), Div is Euclidean (unlike Go). -/
def divOpApply : DivOpKind → Int → Int → Int
  | .tdiv, a, b => Int.tdiv a b
  | .tmod, a, b => Int.tmod a b
  | .ediv, a, b => Int.ediv a b

/-- BigIntTDiv / BigIntTMod / BigIntEDiv: deduct the base cost, get-or-create
the destination, look up the operands, deduct copy gas, signal div-zero on a
zero divisor without dividing, else store the result in the destination
handle. -/
def bigIntDivOp (sched : GasSchedule) (k : DivOpKind) (st : MTState)
    (destinationHandle op1Handle op2Handle : Int) : MTState × Option VMErr :=
  let st1 := { st with gasUsed := st.gasUsed + divOpBaseCost sched k }
  let r := getBigIntOrCreate st1 destinationHandle
  match getTwoBigInt r.2 op1Handle op2Handle with
  | .error e => (r.2, some e)
  | .ok (a, b) =>
    let st3 := consumeGasForBigIntCopy sched r.2 [r.1, a, b]
    if b = 0 then (st3, some .divZero)
    else ({ st3 with
        bigIntValues := mtInsert st3.bigIntValues destinationHandle (divOpApply k a b) }, none)

/-- The expected result byte length BigIntPow computes:
Div(Mul(b, BitLen(a)), 8) with big.Int's Euclidean division. -/
def lengthOfPowResult (a b : Int) : Int := Int.ediv (b * (bitLen a.natAbs : Int)) 8

/-- BigIntPow: deduct the base cost, get-or-create the destination, look up
the operands, deduct the result-length bound and the copy gas, fail on a
negative exponent, else store the power. -/
def bigIntPow (sched : GasSchedule) (st : MTState)
    (destinationHandle op1Handle op2Handle : Int) : MTState × Option VMErr :=
  let st1 := { st with gasUsed := st.gasUsed + sched.bigIntPowCost }
  let r := getBigIntOrCreate st1 destinationHandle
  match getTwoBigInt r.2 op1Handle op2Handle with
  | .error e => (r.2, some e)
  | .ok (a, b) =>
    let st3 := consumeGasForThisBigIntNumberOfBytes sched r.2 (lengthOfPowResult a b)
    let st4 := consumeGasForBigIntCopy sched st3 [a, b]
    if b < 0 then (st4, some .badLowerBounds)
    else ({ st4 with
        bigIntValues := mtInsert st4.bigIntValues destinationHandle (a ^ b.toNat) }, none)

/-- The byte-length formula as the spec's words state it:
ceil(bits(base) × exponent / 8); defined only for comparison with the
source's lengthOfPowResult. -/
def specCeilPowByteLen (a b : Int) : Nat := (bitLen a.natAbs * b.toNat + 7) / 8

/-- A handle table holding 5 under handle 1 and 0 under handle 2. -/
def mt9 : MTState := { bigIntValues := [(1, 5), (2, 0)], gasUsed := 0 }

/-- A handle table holding 1 under handles 1 and 2. -/
def mt8 : MTState := { bigIntValues := [(1, 1), (2, 1)], gasUsed := 0 }

/-- The callback argument list: the return code bytes first, then the return
data on success or the return message on error. -/
def callbackArgs (out : VMOutputM) (errNone : Bool) : List Bytes :=
  natToBEBytes out.returnCode :: (if errNone then out.returnData else [out.returnMessage])

/-- The gas createCallbackContractCallInput deducts: one async-call-step plus
data-copy-per-byte times the callback data length. -/
def callbackGasDeduction (sched : GasSchedule) (callbackFunction : String)
    (args : List Bytes) : Nat :=
  sched.asyncCallStep + sched.dataCopyPerByte * computeDataLengthFromArguments callbackFunction args

/-- A destination output with return code Ok, one byte of return data and 100
gas remaining. -/
def c4out : VMOutputM :=
  { returnCode := 0, returnData := [[7]], returnMessage := [], gasRemaining := 100 }

/-- The same destination output with only 5 gas remaining. -/
def c4outLow : VMOutputM := { c4out with gasRemaining := 5 }

/-- A unit gas schedule used for concrete evaluations. -/
def sched1 : GasSchedule :=
  { dataCopyPerByte := 1, storePerByte := 1, persistPerByte := 1, releasePerByte := 1,
    asyncCallStep := 1, bigIntPowCost := 1, bigIntTDivCost := 1, bigIntTModCost := 1,
    bigIntEDivCost := 1 }

/-- A gas schedule with data-copy cost 8 and a free pow base cost, amplifying
the byte-length bound. -/
def sched8 : GasSchedule := { sched1 with dataCopyPerByte := 8, bigIntPowCost := 0 }

/-- Concrete storage context whose cache holds a reserved-prefix key with a
value that differs from the hook's, while the different-gas flag is unset. -/
def c2ctx : StorageCtx :=
  { reservedPrefix := [69], flagDifferentGas := false, readOnly := false, protectionEnabled := true,
    hook := fun _ => [2], updates := [([69], { offset := [69], data := [1], written := false })],
    metering := { gasLeft := 10, refund := 0 }, schedule := sched1, address := [], stateStack := [] }

/-- The same context with the different-gas flag set. -/
def c2bypassCtx : StorageCtx := { c2ctx with flagDifferentGas := true }

/-- Concrete storage context for a delete-refund run: empty cache, hook holds a
one-byte value under key 1. -/
def c5ctx : StorageCtx :=
  { reservedPrefix := [69], flagDifferentGas := false, readOnly := false, protectionEnabled := true,
    hook := fun _ => [5], updates := [], metering := { gasLeft := 100, refund := 0 },
    schedule := sched1, address := [], stateStack := [] }

/-- The c5ctx context after the old value has been pulled into the cache. -/
def c5ctx1 : StorageCtx :=
  { c5ctx with updates := [([1], { offset := [1], data := [5], written := false })] }

/-- A read-only storage context. -/
def c6ctx : StorageCtx := { c2ctx with readOnly := true }

/-- A pending async call with the given destination and no developer gas. -/
def mkCall (dest : Bytes) : AsyncCall :=
  { status := .pending, destination := dest, data := [], valueBytes := [],
    providedGas := 0, gasLimit := 0, successCallback := "", errorCallback := "" }

/-- A pending async call with the given destination and developer gas. -/
def mkCallG (dest : Bytes) (g : Nat) : AsyncCall :=
  { status := .pending, destination := dest, data := [], valueBytes := [],
    providedGas := g, gasLimit := 0, successCallback := "", errorCallback := "" }

/-- An async context with a single zero-gas call. -/
def c3ctx : AsyncContext :=
  { callerAddr := [1], returnData := [],
    asyncCallGroups := [("g", { callback := "", asyncCalls := [mkCallG [2] 0] })] }

/-- An async context with one four-gas call and one zero-gas call. -/
def c3wctx : AsyncContext :=
  { callerAddr := [1], returnData := [],
    asyncCallGroups := [("g", { callback := "", asyncCalls := [mkCallG [2] 4, mkCallG [3] 0] })] }

/-- The context c3wctx after a successful gas setup with gas-left 10. -/
def c3wexpected : AsyncContext :=
  { c3wctx with
      asyncCallGroups :=
        assignGasShare
          ((10 - groupsProvidedSum c3wctx.asyncCallGroups) /
            groupsZeroCount c3wctx.asyncCallGroups)
          (mapPass1 c3wctx.asyncCallGroups) }

/-- An async context with one group of two pending calls. -/
def c1ctx : AsyncContext :=
  { callerAddr := [10], returnData := [],
    asyncCallGroups := [("g", { callback := "", asyncCalls := [mkCall [7], mkCall [8]] })] }

/-- An async context with one group holding a single pending call. -/
def c1wctx : AsyncContext :=
  { callerAddr := [10], returnData := [],
    asyncCallGroups := [("g", { callback := "", asyncCalls := [mkCall [7]] })] }

/-- Concrete VM input for witness runs. -/
def vmInput0 : VMInput :=
  { callerAddr := [1], arguments := [], callValue := 0, callType := .directCall, gasPrice := 0,
    gasProvided := 0, gasLocked := 0, currentTxHash := [], originalTxHash := [] }

/-- A runtime context with an empty state stack but a nonempty instance
stack. -/
def rctx0 : RuntimeCtx :=
  { vmInput := vmInput0, scAddress := [2], callFunction := "f", readOnly := false,
    instanceRef := 7, stateStack := [], instanceStack := [3], cleanedInstances := [] }

/-- A storage context with an empty state stack. -/
def sctx10 : StorageCtx :=
  { reservedPrefix := [69], flagDifferentGas := false, readOnly := false,
    protectionEnabled := true, hook := fun _ => [], updates := [],
    metering := { gasLeft := 0, refund := 0 }, schedule := sched1, address := [4],
    stateStack := [] }

/-- C2 (amended): a full characterization of the unmetered read. The cache
bypass happens exactly when the key is not arwen-protected, has the reserved
prefix and the different-gas-for-cached-storage flag is set: then the value
comes from the blockchain hook and the context is untouched. In every other
case — flag unset, or arwen-protected key, or unreserved key — a cached entry
is served from the storage-update cache (the hook is not consulted), and only
on a cache miss is the hook read, populating the cache with written=false. -/
theorem C2_reservedKey_bypass (ctx : StorageCtx) (key : Bytes) :
    ((!(isArwenProtectedKey key) && isElrondReservedKey ctx key &&
        ctx.flagDifferentGas) = true →
      getStorageFromAddressUnmetered ctx key = (ctx.hook key, false, ctx)) ∧
    ((!(isArwenProtectedKey key) && isElrondReservedKey ctx key &&
        ctx.flagDifferentGas) = false →
      (∀ u, suLookup ctx.updates key = some u →
        getStorageFromAddressUnmetered ctx key = (u.data, true, ctx)) ∧
      (suLookup ctx.updates key = none →
        getStorageFromAddressUnmetered ctx key =
          (ctx.hook key, false,
            { ctx with updates := suInsert ctx.updates key { offset := key, data := ctx.hook key, written := false } }))) := by
  refine ⟨?_, ?_⟩
  · intro h
    simp [getStorageFromAddressUnmetered, h]
  · intro h
    refine ⟨?_, ?_⟩
    · intro u hu
      simp [getStorageFromAddressUnmetered, h, hu]
    · intro hn
      simp [getStorageFromAddressUnmetered, h, hn]

/-- Witness for C2_reservedKey_bypass, exercising both directions: with the
flag set the reserved key is read from the hook; with the flag unset the
cached entry (value 1) is served. -/
theorem C2_reservedKey_bypass_witness :
    ((!(isArwenProtectedKey [69]) && isElrondReservedKey c2bypassCtx [69] &&
        c2bypassCtx.flagDifferentGas) = true ∧
      getStorageFromAddressUnmetered c2bypassCtx [69] =
        (c2bypassCtx.hook [69], false, c2bypassCtx)) ∧
    ((!(isArwenProtectedKey [69]) && isElrondReservedKey c2ctx [69] &&
        c2ctx.flagDifferentGas) = false ∧
      suLookup c2ctx.updates [69] =
        some { offset := [69], data := [1], written := false } ∧
      getStorageFromAddressUnmetered c2ctx [69] =
        (({ offset := [69], data := [1], written := false } : StorageUpdate).data, true, c2ctx)) :=
  ⟨⟨rfl, (C2_reservedKey_bypass c2bypassCtx [69]).1 rfl⟩,
    ⟨rfl, rfl,
      ((C2_reservedKey_bypass c2ctx [69]).2 rfl).1
        { offset := [69], data := [1], written := false } rfl⟩⟩

/-- C2 counterexample: with the different-gas flag unset, a read of a
reserved-prefix key is served from the storage-update cache (value 1), not
from the hook (value 2) — the claim's "fetched from the hook unconditionally"
fails. -/
theorem C2_reservedKey_counterexample :
    isElrondReservedKey c2ctx [69] = true ∧
    getStorageFromAddressUnmetered c2ctx [69] = ([1], true, c2ctx) ∧
    c2ctx.hook [69] = [2] ∧ ([1] : Bytes) ≠ ([2] : Bytes) :=
  ⟨rfl, rfl, rfl, by decide⟩

/-- C5: a write of the empty value over a non-empty old value on a writable,
unreserved, unprotected key classifies as Deleted, records a refund of
release-per-byte times the old length, and replaces the key's cache entry by
an empty value with written=true. -/
theorem C5_storageDeleted_refund (ctx : StorageCtx) (key : Bytes)
    (old : Bytes) (usedCache : Bool) (ctx1 : StorageCtx)
    (hro : ctx.readOnly = false)
    (hres : (!(isArwenProtectedKey key) && isElrondReservedKey ctx key) = false)
    (hprot : (isArwenProtectedKey key && ctx.protectionEnabled) = false)
    (hold : getOldValue ctx key = (old, usedCache, ctx1))
    (hne : old ≠ [])
    (hgas : computeGasForKey ctx1 key usedCache ≤ ctx1.metering.gasLeft)
    (hsat : ctx1.schedule.releasePerByte * old.length ≤ UINT64_MAX) :
    setStorageToAddress ctx key [] =
      (.deleted, none,
        { ctx1 with
            updates := suInsert ctx1.updates key { offset := key, data := [], written := true },
            metering :=
              { gasLeft := ctx1.metering.gasLeft - computeGasForKey ctx1 key usedCache,
                refund := ctx1.metering.refund + ctx1.schedule.releasePerByte * old.length } }) := by
  have hgas' : ¬ (computeGasForKey ctx1 key usedCache > ctx1.metering.gasLeft) :=
    not_lt.mpr hgas
  simp only [setStorageToAddress, hro, hres, hprot, hold, Bool.false_eq_true, if_false,
    useGasBounded, hgas', ite_false]
  rw [if_neg hne, if_neg hne]
  simp [storageDeleted, changeStorageUpdate, freeGas, mulUint64, Nat.min_eq_left hsat]

/-- Witness for C5_storageDeleted_refund at a concrete context. -/
theorem C5_storageDeleted_refund_witness :
    getOldValue c5ctx [1] = ([5], false, c5ctx1) ∧
    setStorageToAddress c5ctx [1] [] =
      (.deleted, none,
        { c5ctx1 with
            updates := suInsert c5ctx1.updates [1] { offset := [1], data := [], written := true },
            metering :=
              { gasLeft := c5ctx1.metering.gasLeft - computeGasForKey c5ctx1 [1] false,
                refund := c5ctx1.metering.refund + c5ctx1.schedule.releasePerByte * ([5] : Bytes).length } }) :=
  ⟨rfl,
    C5_storageDeleted_refund c5ctx [1] [5] false c5ctx1 rfl (by decide) (by decide) rfl
      (by decide) (by decide) (by decide)⟩

/-- C6: a storage write in read-only mode returns Unchanged with no error and
leaves the whole context (update map and metering) untouched, so it never
produces a written=true entry. -/
theorem C6_readOnly_noop (ctx : StorageCtx) (key value : Bytes) (h : ctx.readOnly = true) :
    setStorageToAddress ctx key value = (.unchanged, none, ctx) := by
  simp [setStorageToAddress, h]

/-- Witness for C6_readOnly_noop at a concrete context. -/
theorem C6_readOnly_noop_witness :
    c6ctx.readOnly = true ∧ setStorageToAddress c6ctx [1] [2] = (.unchanged, none, c6ctx) :=
  ⟨rfl, C6_readOnly_noop c6ctx [1] [2] rfl⟩

theorem copyBytes_length (n : Nat) (src : Bytes) : (copyBytes n src).length = n := by
  simp [copyBytes]
  omega

theorem uint32cast_of_small (x : Int) (h0 : 0 ≤ x) (h1 : x < 2 ^ 32) : uint32cast x = x.toNat := by
  unfold uint32cast
  rw [Int.emod_eq_of_lt h0 h1]

/-- C7 (amended): mem-load fails with bad-bounds for every negative offset
with nonzero length, fails for every negative length, returns the empty byte
string for length zero (even at a negative offset), and when the offset lies
within memory but offset+length exceeds the memory length it returns the
available bytes zero-padded to exactly length bytes. -/
theorem C7_memLoad_amended :
    (∀ (mem : Bytes) (offset length : Int), offset < 0 → length ≠ 0 →
        memLoad mem offset length = .error .badBounds) ∧
    (∀ (mem : Bytes) (offset length : Int), length < 0 →
        memLoad mem offset length = .error .badBounds ∨
        memLoad mem offset length = .error .negativeLength) ∧
    (∀ (mem : Bytes) (offset : Int), memLoad mem offset 0 = .ok []) ∧
    (∀ (mem : Bytes) (offset length : Int),
        0 ≤ offset → offset ≤ INT32_MAX_I → uint32cast offset ≤ mem.length →
        0 < length → length ≤ INT32_MAX_I →
        (mem.length : Int) < offset + length → (mem.length : Int) < 2 ^ 31 →
        memLoad mem offset length = .ok (copyBytes length.toNat (mem.drop offset.toNat)) ∧
        (copyBytes length.toNat (mem.drop offset.toNat)).length = length.toNat) := by
  refine ⟨?_, ?_, ?_, ?_⟩
  · intro mem offset length hoff hlen
    simp [memLoad, hlen, hoff]
  · intro mem offset length hlen
    have hne : length ≠ 0 := by omega
    by_cases hc : offset < 0
    · left
      simp [memLoad, hne, hc]
    · by_cases hc2 : uint32cast offset > mem.length
      · left
        simp [memLoad, hne, hc, hc2]
      · right
        simp [memLoad, hne, hc, hc2, hlen]
  · intro mem offset
    simp [memLoad]
  · intro mem offset length h0 hoffmax hle hpos hmax hover hmem
    refine ⟨?_, copyBytes_length length.toNat (mem.drop offset.toNat)⟩
    have hne : length ≠ 0 := by omega
    have hoffcast : uint32cast offset = offset.toNat := by
      refine uint32cast_of_small offset h0 ?_
      unfold INT32_MAX_I at hoffmax
      omega
    have hnosmall : ¬ offset < 0 := by omega
    have hnolarge : ¬ uint32cast offset > mem.length := by omega
    have hnoneg : ¬ length < 0 := by omega
    have hendeq : uint32cast (addInt32 offset length) = (min (offset + length) INT32_MAX_I).toNat := by
      unfold addInt32
      have hmaxeq : max INT32_MIN_I (min (offset + length) INT32_MAX_I) = min (offset + length) INT32_MAX_I := by
        unfold INT32_MIN_I INT32_MAX_I
        omega
      rw [hmaxeq]
      refine uint32cast_of_small _ ?_ ?_
      · unfold INT32_MAX_I
        omega
      · unfold INT32_MAX_I
        omega
    have hnl2 : ¬ offset.toNat > mem.length := by
      rw [hoffcast] at hnolarge
      exact hnolarge
    simp only [memLoad]
    rw [if_neg hne]
    simp only [hoffcast]
    rw [if_neg (not_or_intro hnosmall hnl2), if_neg hnoneg]
    by_cases hbig : uint32cast (addInt32 offset length) > mem.length
    · rw [if_pos hbig]
    · rw [if_neg hbig]
      have htake : mem.take (uint32cast (addInt32 offset length)) = mem := by
        refine List.take_of_length_le ?_
        rw [hendeq] at hbig ⊢
        unfold INT32_MAX_I at *
        omega
      rw [htake]

/-- Witness for C7_memLoad_amended applied at concrete inputs: a two-byte
memory read past its end is zero-padded, and a negative-offset nonzero-length
read fails. -/
theorem C7_memLoad_amended_witness :
    memLoad [5, 6] 1 2 = .ok [6, 0] ∧ memLoad [] (-3) 1 = .error .badBounds := by
  constructor
  · have h := C7_memLoad_amended.2.2.2 [5, 6] 1 2 (by decide) (by decide) (by decide)
      (by decide) (by decide) (by decide) (by decide)
    rw [h.1]
    rfl
  · exact C7_memLoad_amended.1 [] (-3) 1 (by decide) (by decide)

/-- C7 counterexample: mem-load with a negative offset and zero length
succeeds with an empty result, because the zero-length short-circuit precedes
the offset check — the claim's "fails for every negative offset" is false. -/
theorem C7_memLoad_counterexample :
    memLoad [] (-1) 0 = .ok [] ∧ (-1 : Int) < 0 := by
  constructor
  · simp [memLoad]
  · decide

/-- C10: with an empty state stack, pop-set-active and pop-discard on both the
runtime context and the storage context are total no-ops: no failure and no
change to any field (address, frame, active instance), even when the instance
stack is nonempty. -/
theorem C10_pop_empty_noop (rctx : RuntimeCtx) (sctx : StorageCtx)
    (hr : rctx.stateStack = []) (hs : sctx.stateStack = []) :
    runtimePopSetActiveState rctx = rctx ∧ runtimePopDiscard rctx = rctx ∧
    storagePopSetActiveState sctx = sctx ∧ storagePopDiscard sctx = sctx := by
  refine ⟨?_, ?_, ?_, ?_⟩ <;>
    simp [runtimePopSetActiveState, runtimePopDiscard, storagePopSetActiveState,
      storagePopDiscard, hr, hs]

/-- Witness for C10_pop_empty_noop at concrete contexts. -/
theorem C10_pop_empty_noop_witness :
    rctx0.stateStack = [] ∧ sctx10.stateStack = [] ∧
    (runtimePopSetActiveState rctx0 = rctx0 ∧ runtimePopDiscard rctx0 = rctx0 ∧
      storagePopSetActiveState sctx10 = sctx10 ∧ storagePopDiscard sctx10 = sctx10) :=
  ⟨rfl, rfl, C10_pop_empty_noop rctx0 sctx10 rfl rfl⟩

theorem findCallPos_spec (caller : Bytes) :
    ∀ (calls : List AsyncCall) (i pos : Nat), findCallPos caller calls i = some pos →
      i ≤ pos ∧ ∃ c, calls[pos - i]? = some c ∧ c.destination = caller := by
  intro calls
  induction calls with
  | nil =>
    intro i pos h
    simp [findCallPos] at h
  | cons c rest ih =>
    intro i pos h
    unfold findCallPos at h
    by_cases hd : c.destination = caller
    · rw [if_pos hd] at h
      cases h
      exact ⟨le_refl _, c, by simp, hd⟩
    · rw [if_neg hd] at h
      obtain ⟨hle, c', hc', hdest⟩ := ih (i + 1) pos h
      refine ⟨by omega, c', ?_, hdest⟩
      have hk : pos - i = (pos - (i + 1)) + 1 := by omega
      rw [hk]
      simpa using hc'

theorem scanGroups_result (caller : Bytes) :
    ∀ (groups : List (String × AsyncCallGroup)) (acc : String × Nat),
      scanGroups caller groups acc = acc ∨
      ∃ gid grp pos, (gid, grp) ∈ groups ∧ findCallPos caller grp.asyncCalls 0 = some pos ∧
        scanGroups caller groups acc = (gid, pos) := by
  intro groups
  induction groups with
  | nil =>
    intro acc
    left
    rfl
  | cons p rest ih =>
    intro acc
    obtain ⟨gid0, grp0⟩ := p
    unfold scanGroups
    cases hf : findCallPos caller grp0.asyncCalls 0 with
    | some pos =>
      simp only [hf]
      by_cases hl : gid0.length > 0
      · rw [if_pos hl]
        right
        exact ⟨gid0, grp0, pos, by simp, hf, rfl⟩
      · rw [if_neg hl]
        rcases ih (gid0, pos) with h | ⟨gid, grp, pos', hmem, hfp, hscan⟩
        · right
          exact ⟨gid0, grp0, pos, by simp, hf, h⟩
        · right
          exact ⟨gid, grp, pos', by simp [hmem], hfp, hscan⟩
    | none =>
      simp only [hf]
      by_cases hl : acc.1.length > 0
      · rw [if_pos hl]
        left
        rfl
      · rw [if_neg hl]
        rcases ih acc with h | ⟨gid, grp, pos', hmem, hfp, hscan⟩
        · left
          exact h
        · right
          exact ⟨gid, grp, pos', by simp [hmem], hfp, hscan⟩

theorem lookupGroup_eq_of_mem (groups : List (String × AsyncCallGroup)) (gid : String)
    (grp : AsyncCallGroup) (hnodup : (groups.map Prod.fst).Nodup) (hmem : (gid, grp) ∈ groups) :
    lookupGroup groups gid = grp := by
  induction groups with
  | nil => cases hmem
  | cons p rest ih =>
    obtain ⟨g0, grp0⟩ := p
    rcases List.mem_cons.mp hmem with heq | hmem'
    · obtain ⟨h1, h2⟩ := Prod.mk.injEq .. ▸ heq
      unfold lookupGroup
      rw [if_pos h1.symm]
      exact h2.symm
    · have hne : g0 ≠ gid := by
        intro h
        subst h
        exact (List.nodup_cons.mp (by simpa using hnodup)).1
          (List.mem_map_of_mem Prod.fst hmem')
      unfold lookupGroup
      rw [if_neg hne]
      exact ih (List.nodup_cons.mp (by simpa using hnodup)).2 hmem'

/-- C1 (amended): processing an incoming cross-shard callback locates the call
whose destination equals the caller of the callback and removes it from its
group in the in-memory copy of the persisted context (dropping the group when
it empties); if any groups remain, processing returns WITHOUT re-persisting —
it performs no storage write at all; only when no groups remain is the
persisted entry cleared (a nil write under the reserved async-data key). -/
theorem C1_callbackStack_amended (canL : Bytes → Bool) (txHash callerAddr : Bytes)
    (actx : AsyncContext) (hnodup : (actx.asyncCallGroups.map Prod.fst).Nodup) :
    ((scanGroups callerAddr actx.asyncCallGroups ("", 0)).1.length = 0 →
        processCallbackStack canL txHash callerAddr actx =
          { outcome := .notExpected, storageWrites := [] }) ∧
    ((scanGroups callerAddr actx.asyncCallGroups ("", 0)).1.length ≠ 0 →
        (∃ c, (lookupGroup actx.asyncCallGroups
              (scanGroups callerAddr actx.asyncCallGroups ("", 0)).1).asyncCalls[
              (scanGroups callerAddr actx.asyncCallGroups ("", 0)).2]? = some c ∧
            c.destination = callerAddr) ∧
        ((if (swapRemoveLast (lookupGroup actx.asyncCallGroups
                (scanGroups callerAddr actx.asyncCallGroups ("", 0)).1).asyncCalls
                (scanGroups callerAddr actx.asyncCallGroups ("", 0)).2).length = 0 then
            removeGroup actx.asyncCallGroups (scanGroups callerAddr actx.asyncCallGroups ("", 0)).1
          else actx.asyncCallGroups).length > 0 →
          processCallbackStack canL txHash callerAddr actx =
            { outcome := .stillPending, storageWrites := [] }) ∧
        ((if (swapRemoveLast (lookupGroup actx.asyncCallGroups
                (scanGroups callerAddr actx.asyncCallGroups ("", 0)).1).asyncCalls
                (scanGroups callerAddr actx.asyncCallGroups ("", 0)).2).length = 0 then
            removeGroup actx.asyncCallGroups (scanGroups callerAddr actx.asyncCallGroups ("", 0)).1
          else actx.asyncCallGroups).length = 0 →
          (processCallbackStack canL txHash callerAddr actx).storageWrites =
            [(customStorageKey AsyncDataPrefix txHash, none)])) := by
  refine ⟨?_, ?_⟩
  · intro h
    simp [processCallbackStack, h]
  · intro h
    refine ⟨?_, ?_, ?_⟩
    · rcases scanGroups_result callerAddr actx.asyncCallGroups ("", 0) with hid | ⟨gid, grp, pos, hmem, hfp, hscan⟩
      · rw [hid] at h
        simp at h
      · rw [hscan]
        rw [lookupGroup_eq_of_mem actx.asyncCallGroups gid grp hnodup hmem]
        obtain ⟨-, c, hc, hdest⟩ := findCallPos_spec callerAddr grp.asyncCalls 0 pos hfp
        exact ⟨c, by simpa using hc, hdest⟩
    · intro hrem
      unfold processCallbackStack
      rw [if_neg h]
      rw [if_pos hrem]
    · intro hrem
      have hrem' : ¬ ((if (swapRemoveLast (lookupGroup actx.asyncCallGroups
            (scanGroups callerAddr actx.asyncCallGroups ("", 0)).1).asyncCalls
            (scanGroups callerAddr actx.asyncCallGroups ("", 0)).2).length = 0 then
          removeGroup actx.asyncCallGroups (scanGroups callerAddr actx.asyncCallGroups ("", 0)).1
        else actx.asyncCallGroups).length > 0) := by omega
      unfold processCallbackStack
      rw [if_neg h]
      rw [if_neg hrem']
      cases hcl : canL actx.callerAddr <;> simp [hcl]

/-- Witness for C1_callbackStack_amended: a context with a single one-call
group, called back by that call's destination, clears the persisted entry. -/
theorem C1_callbackStack_amended_witness :
    (scanGroups [7] c1wctx.asyncCallGroups ("", 0)).1.length ≠ 0 ∧
    (processCallbackStack (fun _ => true) [3] [7] c1wctx).storageWrites =
      [(customStorageKey AsyncDataPrefix [3], none)] := by
  refine ⟨by decide, ?_⟩
  have h := C1_callbackStack_amended (fun _ => true) [3] [7] c1wctx (by decide)
  exact (h.2 (by decide)).2.2 (by decide)

/-- C1 counterexample: with one two-call group, removing the matching call
leaves the group nonempty; the run returns still-pending with NO storage
write, although the claim requires the modified context to be re-persisted
under the reserved async-data key. -/
theorem C1_callbackStack_counterexample :
    processCallbackStack (fun _ => true) [3] [7] c1ctx =
      { outcome := .stillPending, storageWrites := [] } := by
  rfl

theorem setupCallsPass1_spec (gasLeft : Nat) :
    ∀ (calls : List AsyncCall) (g0 z0 : Nat),
      g0 + callsProvidedSum calls ≤ UINT64_MAX →
      (g0 ≤ gasLeft → gasLeft < g0 + callsProvidedSum calls →
        setupCallsPass1 gasLeft calls g0 z0 = .error .notEnoughGas) ∧
      (g0 + callsProvidedSum calls ≤ gasLeft →
        setupCallsPass1 gasLeft calls g0 z0 =
          .ok (calls.map pass1Assign, g0 + callsProvidedSum calls, z0 + callsZeroCount calls)) := by
  intro calls
  induction calls with
  | nil =>
    intro g0 z0 hb
    refine ⟨?_, ?_⟩
    · intro h0 hlt
      simp [callsProvidedSum] at hlt
      omega
    · intro hle
      simp [setupCallsPass1, callsProvidedSum, callsZeroCount]
  | cons c rest ih =>
    intro g0 z0 hb
    have hsum : callsProvidedSum (c :: rest) = c.providedGas + callsProvidedSum rest := by
      simp [callsProvidedSum]
    have hzc : callsZeroCount (c :: rest) =
        (if c.providedGas = 0 then 1 else 0) + callsZeroCount rest := by
      by_cases h : c.providedGas = 0
      · simp [callsZeroCount, h, List.filter]
        omega
      · simp [callsZeroCount, h, List.filter]
    rw [hsum] at hb
    unfold setupCallsPass1
    have hadd : addUint64Checked g0 c.providedGas = .ok (g0 + c.providedGas) := by
      unfold addUint64Checked
      rw [if_pos (by omega)]
    simp only [hadd]
    by_cases hgt : g0 + c.providedGas > gasLeft
    · rw [if_pos hgt]
      refine ⟨fun _ _ => rfl, fun hle => ?_⟩
      rw [hsum] at hle
      omega
    · rw [if_neg hgt]
      by_cases hz : c.providedGas = 0
      · rw [if_pos hz]
        obtain ⟨ihE, ihO⟩ := ih (g0 + c.providedGas) (z0 + 1) (by omega)
        refine ⟨?_, ?_⟩
        · intro h0 hlt
          rw [hsum] at hlt
          rw [ihE (by omega) (by omega)]
        · intro hle
          rw [hsum] at hle
          rw [ihO (by omega)]
          simp [pass1Assign, hz, hsum, hzc, Nat.add_assoc]
      · rw [if_neg hz]
        obtain ⟨ihE, ihO⟩ := ih (g0 + c.providedGas) z0 (by omega)
        refine ⟨?_, ?_⟩
        · intro h0 hlt
          rw [hsum] at hlt
          rw [ihE (by omega) (by omega)]
        · intro hle
          rw [hsum] at hle
          rw [ihO (by omega)]
          simp [pass1Assign, hz, hsum, hzc, Nat.add_assoc]

theorem setupGroupsPass1_spec (gasLeft : Nat) :
    ∀ (groups : List (String × AsyncCallGroup)) (g0 z0 : Nat),
      g0 + groupsProvidedSum groups ≤ UINT64_MAX →
      (g0 ≤ gasLeft → gasLeft < g0 + groupsProvidedSum groups →
        setupGroupsPass1 gasLeft groups g0 z0 = .error .notEnoughGas) ∧
      (g0 + groupsProvidedSum groups ≤ gasLeft →
        setupGroupsPass1 gasLeft groups g0 z0 =
          .ok (mapPass1 groups, g0 + groupsProvidedSum groups, z0 + groupsZeroCount groups)) := by
  intro groups
  induction groups with
  | nil =>
    intro g0 z0 hb
    refine ⟨?_, ?_⟩
    · intro h0 hlt
      simp [groupsProvidedSum] at hlt
      omega
    · intro hle
      simp [setupGroupsPass1, groupsProvidedSum, groupsZeroCount, mapPass1]
  | cons p rest ih =>
    obtain ⟨gid, grp⟩ := p
    intro g0 z0 hb
    have hsum : groupsProvidedSum ((gid, grp) :: rest) =
        callsProvidedSum grp.asyncCalls + groupsProvidedSum rest := by
      simp [groupsProvidedSum]
    have hzc : groupsZeroCount ((gid, grp) :: rest) =
        callsZeroCount grp.asyncCalls + groupsZeroCount rest := by
      simp [groupsZeroCount]
    rw [hsum] at hb
    obtain ⟨cE, cO⟩ := setupCallsPass1_spec gasLeft grp.asyncCalls g0 z0 (by omega)
    unfold setupGroupsPass1
    by_cases hgt : gasLeft < g0 + callsProvidedSum grp.asyncCalls
    · refine ⟨?_, ?_⟩
      · intro h0 hlt
        rw [cE h0 hgt]
      · intro hle
        rw [hsum] at hle
        omega
    · push_neg at hgt
      simp only [cO hgt]
      obtain ⟨ihE, ihO⟩ :=
        ih (g0 + callsProvidedSum grp.asyncCalls) (z0 + callsZeroCount grp.asyncCalls) (by omega)
      refine ⟨?_, ?_⟩
      · intro h0 hlt
        rw [hsum] at hlt
        rw [ihE (by omega) (by omega)]
      · intro hle
        rw [hsum] at hle
        rw [ihO (by omega)]
        simp [mapPass1, hsum, hzc, Nat.add_assoc]

/-- C3 (amended): gas setup fails with not-enough-gas whenever the total
developer-specified gas exceeds gas-left (assuming the checked additions do
not overflow); when zero-gas calls exist it also fails unless gas-left
STRICTLY exceeds the total; on success every zero-gas call is assigned
gas-limit (gas-left − gas-needed) / count-of-zero-gas-calls (and every other
call its own ProvidedGas). -/
theorem C3_setupGas_amended (gasLeft : Nat) (actx : AsyncContext)
    (hb : groupsProvidedSum actx.asyncCallGroups ≤ UINT64_MAX) :
    (gasLeft < groupsProvidedSum actx.asyncCallGroups →
      setupAsyncCallsGas gasLeft actx = .error .notEnoughGas) ∧
    (groupsProvidedSum actx.asyncCallGroups ≤ gasLeft →
      groupsZeroCount actx.asyncCallGroups = 0 →
      setupAsyncCallsGas gasLeft actx =
        .ok { actx with asyncCallGroups := mapPass1 actx.asyncCallGroups }) ∧
    (groupsZeroCount actx.asyncCallGroups ≠ 0 →
      groupsProvidedSum actx.asyncCallGroups ≤ gasLeft →
      gasLeft ≤ groupsProvidedSum actx.asyncCallGroups →
      setupAsyncCallsGas gasLeft actx = .error .notEnoughGas) ∧
    (groupsZeroCount actx.asyncCallGroups ≠ 0 →
      groupsProvidedSum actx.asyncCallGroups < gasLeft →
      setupAsyncCallsGas gasLeft actx =
        .ok { actx with asyncCallGroups :=
          assignGasShare ((gasLeft - groupsProvidedSum actx.asyncCallGroups) /
              groupsZeroCount actx.asyncCallGroups) (mapPass1 actx.asyncCallGroups) }) := by
  obtain ⟨gErr, gOk⟩ := setupGroupsPass1_spec gasLeft actx.asyncCallGroups 0 0 (by omega)
  refine ⟨?_, ?_, ?_, ?_⟩
  · intro hlt
    unfold setupAsyncCallsGas
    rw [gErr (by omega) (by omega)]
  · intro hle hz
    unfold setupAsyncCallsGas
    rw [gOk (by omega)]
    simp [hz]
  · intro hz hle hge
    unfold setupAsyncCallsGas
    rw [gOk (by omega)]
    simp only [Nat.zero_add]
    rw [if_neg hz, if_pos hge]
  · intro hz hlt
    unfold setupAsyncCallsGas
    rw [gOk (by omega)]
    simp only [Nat.zero_add]
    rw [if_neg hz, if_neg (by omega)]

/-- Witness for C3_setupGas_amended: one call with gas 4 and one with gas 0
under gas-left 10 succeed, the zero-gas call receiving (10 − 4) / 1. -/
theorem C3_setupGas_amended_witness :
    groupsZeroCount c3wctx.asyncCallGroups ≠ 0 ∧
    groupsProvidedSum c3wctx.asyncCallGroups < 10 ∧
    setupAsyncCallsGas 10 c3wctx = .ok c3wexpected :=
  ⟨by decide, by decide,
    (C3_setupGas_amended 10 c3wctx (by decide)).2.2.2 (by decide) (by decide)⟩

/-- C3 counterexample: a single zero-gas call under gas-left 0: the total
developer-specified gas (0) does not exceed gas-left, yet setup fails with
not-enough-gas instead of assigning the zero-gas call its share (0 − 0) / 1 =
0. -/
theorem C3_setupGas_counterexample :
    groupsProvidedSum c3ctx.asyncCallGroups = 0 ∧ ¬ (0 : Nat) < 0 ∧
    setupAsyncCallsGas 0 c3ctx = .error .notEnoughGas := by
  refine ⟨by decide, by decide, ?_⟩
  rfl

/-- C4 (amended): the constructed callback input has call-kind
asynchronous-callback, first argument the status bytes, and gas-provided
equal to gas-remaining minus (async-call-step plus data-copy-per-byte times
the WHOLE callback data length: function name, one separator per argument,
status bytes and return data); construction fails with not-enough-gas exactly
when gas-remaining is not strictly greater than that deduction. -/
theorem C4_callbackInput_amended (sched : GasSchedule) (gasPrice : Nat)
    (currentTxHash originalTxHash scAddress : Bytes) (out : VMOutputM)
    (callbackInitiator : Bytes) (callbackFunction : String) (errNone : Bool)
    (hnw : callbackGasDeduction sched callbackFunction (callbackArgs out errNone) ≤ UINT64_MAX) :
    (out.gasRemaining ≤ callbackGasDeduction sched callbackFunction (callbackArgs out errNone) →
      createCallbackContractCallInput sched gasPrice currentTxHash originalTxHash scAddress out
        callbackInitiator callbackFunction errNone = .error .notEnoughGas) ∧
    (callbackGasDeduction sched callbackFunction (callbackArgs out errNone) < out.gasRemaining →
      ∃ inp,
        createCallbackContractCallInput sched gasPrice currentTxHash originalTxHash scAddress out
          callbackInitiator callbackFunction errNone = .ok inp ∧
        inp.callType = .asynchronousCallBack ∧
        inp.arguments = callbackArgs out errNone ∧
        inp.arguments.head? = some (natToBEBytes out.returnCode) ∧
        inp.gasProvided = out.gasRemaining -
          callbackGasDeduction sched callbackFunction (callbackArgs out errNone) ∧
        inp.callerAddr = callbackInitiator ∧
        inp.recipientAddr = scAddress ∧
        inp.function = callbackFunction) := by
  constructor
  · intro hle
    unfold callbackGasDeduction callbackArgs at hle hnw
    simp only [createCallbackContractCallInput]
    rw [Nat.mod_eq_of_lt (by omega)]
    rw [if_pos hle]
  · intro hlt
    unfold callbackGasDeduction callbackArgs at hlt hnw
    simp only [createCallbackContractCallInput]
    rw [Nat.mod_eq_of_lt (by omega)]
    rw [if_neg (by omega)]
    exact ⟨_, rfl, rfl, rfl, rfl, rfl, rfl, rfl, rfl⟩

/-- Witness for C4_callbackInput_amended: with unit gas costs and 5 gas
remaining, construction fails with not-enough-gas. -/
theorem C4_callbackInput_amended_witness :
    c4outLow.gasRemaining ≤ callbackGasDeduction sched1 "callBack" (callbackArgs c4outLow true) ∧
    createCallbackContractCallInput sched1 0 [] [] [9] c4outLow [8] "callBack" true =
      .error .notEnoughGas :=
  ⟨by decide,
    (C4_callbackInput_amended sched1 0 [] [] [9] c4outLow [8] "callBack" true (by decide)).1
      (by decide)⟩

/-- C4 counterexample: with unit gas costs, return data of one byte and gas
remaining 100, the code provides 100 − 12 = 88 (the deduction counts the
function name "callBack", the two separators and the data bytes), while the
claim's formula gas-remaining − (async-call-step + data-copy-per-byte ×
return-data-length) gives 98. -/
theorem C4_callbackInput_counterexample :
    createCallbackContractCallInput sched1 0 [] [] [9] c4out [8] "callBack" true =
      .ok { callerAddr := [8], arguments := [[], [7]], callValue := 0,
            callType := .asynchronousCallBack, gasPrice := 0, gasProvided := 88,
            currentTxHash := [], originalTxHash := [], recipientAddr := [9],
            function := "callBack" } ∧
    c4out.gasRemaining - (sched1.asyncCallStep +
      sched1.dataCopyPerByte * (c4out.returnData.map List.length).sum) = 98 ∧
    (88 : Nat) ≠ 98 := by
  refine ⟨?_, by decide, by decide⟩
  rfl

theorem mtLookup_insert (m : List (Int × Int)) (k v k2 : Int) :
    mtLookup (mtInsert m k v) k2 = if k = k2 then some v else mtLookup m k2 := by
  induction m with
  | nil => simp [mtInsert, mtLookup]
  | cons p rest ih =>
    obtain ⟨h, w⟩ := p
    by_cases hk : h = k
    · subst hk
      simp only [mtInsert, if_pos rfl, mtLookup]
      by_cases hk2 : h = k2 <;> simp [hk2]
    · simp only [mtInsert, if_neg hk, mtLookup, ih]
      by_cases hk2 : h = k2
      · have hkk2 : ¬ k = k2 := fun he => hk (hk2.trans he.symm)
        simp [hk2, hkk2]
      · simp [hk2]

/-- C9 (amended): a big-integer division or modulus with zero divisor signals
div-zero and never performs the division: the destination's pre-existing
value is untouched, and the only handle-table change is the creation of a
zero value for a never-seen destination handle (by get-or-create, which runs
before the divisor check). -/
theorem C9_divZero_amended (sched : GasSchedule) (k : DivOpKind) (st : MTState)
    (dest h1 h2 : Int) (a : Int)
    (ha : mtLookup st.bigIntValues h1 = some a)
    (hb : mtLookup st.bigIntValues h2 = some 0) :
    (bigIntDivOp sched k st dest h1 h2).2 = some .divZero ∧
    (∀ v, mtLookup st.bigIntValues dest = some v →
      (bigIntDivOp sched k st dest h1 h2).1.bigIntValues = st.bigIntValues ∧
      mtLookup (bigIntDivOp sched k st dest h1 h2).1.bigIntValues dest = some v) ∧
    (mtLookup st.bigIntValues dest = none →
      (bigIntDivOp sched k st dest h1 h2).1.bigIntValues = mtInsert st.bigIntValues dest 0 ∧
      mtLookup (bigIntDivOp sched k st dest h1 h2).1.bigIntValues dest = some 0) := by
  cases hdest : mtLookup st.bigIntValues dest with
  | some v0 =>
    have hrun : bigIntDivOp sched k st dest h1 h2 =
        (consumeGasForBigIntCopy sched
          { st with gasUsed := st.gasUsed + divOpBaseCost sched k } [v0, a, 0],
         some .divZero) := by
      unfold bigIntDivOp getBigIntOrCreate getTwoBigInt
      simp [hdest, ha, hb]
    rw [hrun]
    refine ⟨rfl, ?_, ?_⟩
    · intro v hv
      cases hv
      exact ⟨rfl, hdest⟩
    · intro hnone
      simp at hnone
  | none =>
    have hne1 : dest ≠ h1 := by
      intro he
      rw [he] at hdest
      rw [hdest] at ha
      cases ha
    have hne2 : dest ≠ h2 := by
      intro he
      rw [he] at hdest
      rw [hdest] at hb
      cases hb
    have hl1 : mtLookup (mtInsert st.bigIntValues dest 0) h1 = some a := by
      rw [mtLookup_insert, if_neg hne1]
      exact ha
    have hl2 : mtLookup (mtInsert st.bigIntValues dest 0) h2 = some 0 := by
      rw [mtLookup_insert, if_neg hne2]
      exact hb
    have hrun : bigIntDivOp sched k st dest h1 h2 =
        (consumeGasForBigIntCopy sched
          { st with gasUsed := st.gasUsed + divOpBaseCost sched k,
                    bigIntValues := mtInsert st.bigIntValues dest 0 } [0, a, 0],
         some .divZero) := by
      unfold bigIntDivOp getBigIntOrCreate getTwoBigInt
      simp [hdest, hl1, hl2]
    rw [hrun]
    refine ⟨rfl, ?_, ?_⟩
    · intro v hv
      simp at hv
    · intro _
      refine ⟨rfl, ?_⟩
      simp [consumeGasForBigIntCopy, mtLookup_insert]

/-- Witness for C9_divZero_amended: truncated division of 5 by 0 on existing
handles signals div-zero and leaves the table unchanged. -/
theorem C9_divZero_amended_witness :
    mtLookup mt9.bigIntValues 1 = some 5 ∧ mtLookup mt9.bigIntValues 2 = some 0 ∧
    ((bigIntDivOp sched1 .tdiv mt9 1 1 2).2 = some .divZero ∧
      (∀ v, mtLookup mt9.bigIntValues 1 = some v →
        (bigIntDivOp sched1 .tdiv mt9 1 1 2).1.bigIntValues = mt9.bigIntValues ∧
        mtLookup (bigIntDivOp sched1 .tdiv mt9 1 1 2).1.bigIntValues 1 = some v) ∧
      (mtLookup mt9.bigIntValues 1 = none →
        (bigIntDivOp sched1 .tdiv mt9 1 1 2).1.bigIntValues = mtInsert mt9.bigIntValues 1 0 ∧
        mtLookup (bigIntDivOp sched1 .tdiv mt9 1 1 2).1.bigIntValues 1 = some 0)) :=
  ⟨rfl, rfl, C9_divZero_amended sched1 .tdiv mt9 1 1 2 5 rfl rfl⟩

/-- C9 counterexample: with a never-seen destination handle 3, the div-zero
path still creates a zero value under 3, so the handle table is NOT unchanged
as the claim requires. -/
theorem C9_divZero_counterexample :
    (bigIntDivOp sched1 .tdiv mt9 3 1 2).2 = some .divZero ∧
    (bigIntDivOp sched1 .tdiv mt9 3 1 2).1.bigIntValues ≠ mt9.bigIntValues := by
  refine ⟨by decide, by decide⟩

/-- C8 (amended): the extra gas bound BigIntPow deducts before computing the
result is data-copy-per-byte times the expected result byte length computed
as FLOOR(bits(a) × b / 8) — big.Int division truncates downward — not the
ceiling. -/
theorem C8_pow_gas_amended (sched : GasSchedule) (st : MTState) (dest h1 h2 : Int)
    (a b : Int) (ha : mtLookup st.bigIntValues h1 = some a)
    (hb : mtLookup st.bigIntValues h2 = some b) (hbpos : 0 ≤ b) :
    (bigIntPow sched st dest h1 h2).1.gasUsed =
      st.gasUsed + sched.bigIntPowCost +
        sched.dataCopyPerByte * (lengthOfPowResult a b).toNat +
        sched.dataCopyPerByte * (bigIntByteLen a + bigIntByteLen b) ∧
    lengthOfPowResult a b = Int.ofNat ((b.toNat * bitLen a.natAbs) / 8) ∧
    (bigIntPow sched st dest h1 h2).2 = none := by
  have hlen : lengthOfPowResult a b = Int.ofNat ((b.toNat * bitLen a.natAbs) / 8) := by
    unfold lengthOfPowResult
    rw [show b = ((b.toNat : Nat) : Int) from (Int.toNat_of_nonneg hbpos).symm]
    rw [show ((b.toNat : Nat) : Int) * ((bitLen a.natAbs : Nat) : Int) =
        ((b.toNat * bitLen a.natAbs : Nat) : Int) by push_cast; ring]
    simp only [Int.toNat_ofNat]
    exact (Int.ofNat_ediv (b.toNat * bitLen a.natAbs) 8).symm
  have hblt : ¬ b < 0 := by omega
  cases hdest : mtLookup st.bigIntValues dest with
  | some v0 =>
    have hrun : bigIntPow sched st dest h1 h2 =
        ({ consumeGasForBigIntCopy sched
            (consumeGasForThisBigIntNumberOfBytes sched
              { st with gasUsed := st.gasUsed + sched.bigIntPowCost }
              (lengthOfPowResult a b)) [a, b] with
           bigIntValues := mtInsert
            (consumeGasForBigIntCopy sched
              (consumeGasForThisBigIntNumberOfBytes sched
                { st with gasUsed := st.gasUsed + sched.bigIntPowCost }
                (lengthOfPowResult a b)) [a, b]).bigIntValues dest (a ^ b.toNat) }, none) := by
      unfold bigIntPow getBigIntOrCreate getTwoBigInt
      simp [hdest, ha, hb, hblt]
    rw [hrun]
    refine ⟨?_, hlen, rfl⟩
    simp [consumeGasForBigIntCopy, consumeGasForThisBigIntNumberOfBytes, Nat.mul_add,
      Nat.add_assoc]
  | none =>
    have hne1 : dest ≠ h1 := by
      intro he
      rw [he] at hdest
      rw [hdest] at ha
      cases ha
    have hne2 : dest ≠ h2 := by
      intro he
      rw [he] at hdest
      rw [hdest] at hb
      cases hb
    have hl1 : mtLookup (mtInsert st.bigIntValues dest 0) h1 = some a := by
      rw [mtLookup_insert, if_neg hne1]
      exact ha
    have hl2 : mtLookup (mtInsert st.bigIntValues dest 0) h2 = some b := by
      rw [mtLookup_insert, if_neg hne2]
      exact hb
    have hrun : bigIntPow sched st dest h1 h2 =
        ({ consumeGasForBigIntCopy sched
            (consumeGasForThisBigIntNumberOfBytes sched
              { st with gasUsed := st.gasUsed + sched.bigIntPowCost,
                        bigIntValues := mtInsert st.bigIntValues dest 0 }
              (lengthOfPowResult a b)) [a, b] with
           bigIntValues := mtInsert
            (consumeGasForBigIntCopy sched
              (consumeGasForThisBigIntNumberOfBytes sched
                { st with gasUsed := st.gasUsed + sched.bigIntPowCost,
                          bigIntValues := mtInsert st.bigIntValues dest 0 }
                (lengthOfPowResult a b)) [a, b]).bigIntValues dest (a ^ b.toNat) }, none) := by
      unfold bigIntPow getBigIntOrCreate getTwoBigInt
      simp [hdest, hl1, hl2, hblt]
    rw [hrun]
    refine ⟨?_, hlen, rfl⟩
    simp [consumeGasForBigIntCopy, consumeGasForThisBigIntNumberOfBytes, Nat.mul_add,
      Nat.add_assoc]

/-- Witness for C8_pow_gas_amended: pow of 1 by 1 with data-copy cost 8
charges no byte-length gas (floor(1/8) = 0) plus 16 of copy gas. -/
theorem C8_pow_gas_amended_witness :
    mtLookup mt8.bigIntValues 1 = some 1 ∧ mtLookup mt8.bigIntValues 2 = some 1 ∧
    ((bigIntPow sched8 mt8 3 1 2).1.gasUsed =
        mt8.gasUsed + sched8.bigIntPowCost +
          sched8.dataCopyPerByte * (lengthOfPowResult 1 1).toNat +
          sched8.dataCopyPerByte * (bigIntByteLen 1 + bigIntByteLen 1) ∧
      lengthOfPowResult 1 1 = Int.ofNat (((1 : Int).toNat * bitLen (1 : Int).natAbs) / 8) ∧
      (bigIntPow sched8 mt8 3 1 2).2 = none) :=
  ⟨rfl, rfl, C8_pow_gas_amended sched8 mt8 3 1 2 1 1 rfl rfl (by decide)⟩

/-- C8 counterexample: for base 1 and exponent 1 the code's byte length is
floor(1 × 1 / 8) = 0 and the whole pow run charges 16, whereas the claimed
ceiling formula gives byte length 1 and a total of 24. -/
theorem C8_pow_gas_counterexample :
    lengthOfPowResult 1 1 = 0 ∧ specCeilPowByteLen 1 1 = 1 ∧
    (bigIntPow sched8 mt8 3 1 2).1.gasUsed = 16 ∧
    mt8.gasUsed + sched8.bigIntPowCost + sched8.dataCopyPerByte * specCeilPowByteLen 1 1 +
      sched8.dataCopyPerByte * (bigIntByteLen 1 + bigIntByteLen 1) = 24 ∧
    (16 : Nat) ≠ 24 := by
  decide

end WasmVM
